import Mathlib

/-!
Shallow embedding of two Python modules of this repository:

* `griffe/tests.py` — test-fixture helpers building synthetic object trees
  (`vtree`, `htree`, `module_vtree`);
* `mkdocstrings_handlers/python/rendering.py` — stateless template-rendering
  helpers (member ordering and filtering, signature formatting, cross-reference
  markup, template selection).

Python data is modelled explicitly: dictionaries become association lists that
preserve insertion order (assignment to an existing key replaces in place,
otherwise appends), compiled regular expressions become their `search` result
as a `String → Bool` predicate, `None`-able fields become `Option`, and
exceptions become `Except`.  Python's stable `sorted` is modelled by
`List.mergeSort`.
-/

/-! ## Griffe objects (`griffe/tests.py`) -/

/-- A griffe `Object`/`Module` as the fixture builders use it: a name, a file
path (held as a list of path parts, `Path(*parts)`), and a name-keyed,
insertion-ordered mapping of member objects (`obj[name] = child`). -/
inductive GObj where
  | mk (name : String) (filepath : List String) (members : List (String × GObj))

def GObj.name : GObj → String
  | .mk n _ _ => n

def GObj.filepath : GObj → List String
  | .mk _ f _ => f

def GObj.members : GObj → List (String × GObj)
  | .mk _ _ m => m

/-- Assignment into an insertion-ordered dictionary: replace the value in
place when the key is present, append otherwise. -/
def dictSet {α : Type} (k : String) (v : α) : List (String × α) → List (String × α)
  | [] => [(k, v)]
  | (k2, v2) :: rest => if k2 = k then (k2, v) :: rest else (k2, v2) :: dictSet k v rest

/-- `leaf[obj.name] = obj` from `griffe/tests.py`. -/
def GObj.setMember : GObj → String → GObj → GObj
  | .mk n f m, k, v => .mk n f (dictSet k v m)

/-- The mutation loop of `vtree`: each object of the list is nested into the
previous one as a named member; returns the resulting root. -/
def nestChain (top : GObj) : List GObj → GObj
  | [] => top
  | o :: rest => top.setMember o.name (nestChain o rest)

/-- `vtree(*objects, return_leaf=False)` from `griffe/tests.py`: link objects
vertically; `ValueError` when no objects are provided.  The leaf returned by
the Python loop is the last object of the sequence (nothing is ever inserted
into it), the root is the first object with the chain nested inside it. -/
def vtree (objects : List GObj) (return_leaf : Bool) : Except String GObj :=
  match objects with
  | [] => .error "At least one object must be provided"
  | top :: rest => .ok (if return_leaf then rest.getLastD top else nestChain top rest)

/-- `htree(*objects)` from `griffe/tests.py`: all objects after the first
become direct members of the first; `ValueError` when no objects are given. -/
def htree (objects : List GObj) : Except String GObj :=
  match objects with
  | [] => .error "At least one object must be provided"
  | top :: rest => .ok (rest.foldl (fun t o => t.setMember o.name o) top)

/-- Python's `str.split(".")`, recursively on the character list: splitting an
empty string yields `[[]]`, a dot always opens a new segment. -/
def pySplitDotAux : List Char → List (List Char)
  | [] => [[]]
  | c :: rest =>
    match pySplitDotAux rest with
    | [] => [[c]]
    | h :: t => if c = '.' then [] :: h :: t else (c :: h) :: t

/-- Python's `path.split(".")` on strings. -/
def pySplitDot (s : String) : List String :=
  (pySplitDotAux s.data).map (fun cs => String.mk cs)

/-- `module_vtree(path, leaf_package=True, return_leaf=False)` from
`griffe/tests.py`: one module per dotted segment, filepath
`Path(*parts[:index], "__init__.py")`; when the leaf is not a package its
filepath's last component becomes `"{parts[-1]}.py"` (`with_stem`); the
modules are then threaded through `vtree`. -/
def module_vtree (path : String) (leaf_package : Bool) (return_leaf : Bool) :
    Except String GObj :=
  let parts := pySplitDot path
  let modules := parts.enum.map
    (fun p => GObj.mk p.2 (parts.take p.1 ++ ["__init__.py"]) [])
  let modules :=
    if leaf_package then modules
    else
      match modules.getLast? with
      | some m =>
        modules.dropLast ++
          [GObj.mk m.name (m.filepath.dropLast ++ [parts.getLastD "" ++ ".py"]) m.members]
      | none => modules
  vtree modules return_leaf

/-! ## Rendering helpers (`mkdocstrings_handlers/python/rendering.py`) -/

/-- A collected item as the rendering helpers see it: a name (griffe names are
strings; a missing name surfaces as the falsy empty string), an optional
source line number, and the recursive has-docstrings flag the external object
model computes. -/
structure CItem where
  name : String
  lineno : Option Int
  has_docstrings : Bool
deriving DecidableEq, Repr

/-- The `Order` enumeration. -/
inductive Order where
  | alphabetical
  | source
deriving DecidableEq, Repr

/-- `chr(sys.maxunicode)`, the sorts-last sentinel. -/
def maxUnicodeString : String := String.mk [Char.ofNat 0x10FFFF]

/-- `_sort_key_alphabetical`: `item.name or chr(sys.maxunicode)` — a falsy
(missing/empty) name falls back to the final unicode character. -/
def _sort_key_alphabetical (item : CItem) : String :=
  if item.name = "" then maxUnicodeString else item.name

/-- `_sort_key_source`: `item.lineno if item.lineno is not None else -1`. -/
def _sort_key_source (item : CItem) : Int :=
  match item.lineno with
  | some n => n
  | none => -1

/-- `order_map[order]` turned into the boolean key comparison Python's
`sorted(..., key=order_map[order])` sorts by. -/
def order_key_le (order : Order) (a b : CItem) : Bool :=
  match order with
  | .alphabetical => decide (_sort_key_alphabetical a ≤ _sort_key_alphabetical b)
  | .source => decide (_sort_key_source a ≤ _sort_key_source b)

/-- Python's `sorted`: a stable ascending sort, modelled by `List.mergeSort`. -/
def pySorted {α : Type} (le : α → α → Bool) (l : List α) : List α :=
  l.mergeSort le

/-- Ordered-dictionary lookup (`members_dict[name]`, `d.get(k)`). -/
def dictFind {α : Type} (d : List (String × α)) (k : String) : Option α :=
  (d.find? (fun e => e.1 == k)).map (fun e => e.2)

/-- `{member.name: member for member in members}` — insertion order, a later
member with the same name replaces the earlier one. -/
def members_dict (members : List CItem) : List (String × CItem) :=
  members.foldl (fun d m => dictSet m.name m d) []

/-- `do_order_members(members, order, members_list)`.  Python's
`if members_list:` is true only for a non-`None`, non-empty list; then the
members found in the dictionary are collected in the list's order, otherwise
the members are sorted by the selected key. -/
def do_order_members (members : List CItem) (order : Order)
    (members_list : Option (List String)) : List CItem :=
  match members_list with
  | some (n :: rest) =>
    let md := members_dict members
    (n :: rest).foldl (fun acc nm =>
      match dictFind md nm with
      | some m => acc ++ [m]
      | none => acc) []
  | _ => pySorted (order_key_le order) members

/-- Python's `str.strip()`: drop leading and trailing whitespace. -/
def pyStrip (s : String) : String :=
  String.mk (((s.data.dropWhile Char.isWhitespace).reverse.dropWhile
    Char.isWhitespace).reverse)

/-- `do_format_code(code, line_length)`; the external Black formatter the
resolved `formatter` callable stands for is a parameter of the embedding. -/
def do_format_code (formatter : String → Nat → String) (code : String)
    (line_length : Nat) : String :=
  let code := pyStrip code
  if code.length < line_length then code
  else formatter code line_length

/-- `markupsafe` escaping of one character (`&`, `<`, `>`, `"`, `'`). -/
def markup_escape_char (c : Char) : String :=
  if c = '&' then "&amp;"
  else if c = '<' then "&lt;"
  else if c = '>' then "&gt;"
  else if c = Char.ofNat 34 then "&#34;"
  else if c = Char.ofNat 39 then "&#39;"
  else String.mk [c]

/-- `markupsafe.escape`, as `Markup(...).format(...)` applies it to every
substituted value. -/
def markup_escape (s : String) : String :=
  String.join (s.data.map markup_escape_char)

/-- `do_crossref(path, brief=True)`: the span template with the escaped full
path as the hover attribute and the escaped visible text, which under `brief`
is the last dot-separated segment (`full_path.split(".")[-1]`). -/
def do_crossref (path : String) (brief : Bool) : String :=
  let full_path := path
  let path := if brief then (pySplitDot full_path).getLastD "" else path
  "<span data-autorefs-optional-hover=" ++ markup_escape full_path ++ ">"
    ++ markup_escape path ++ "</span>"

/-- A compiled filter: the pattern (as its `regex.search(name)` test) and the
exclude flag. -/
abbrev FilterRule : Type := (String → Bool) × Bool

/-- The loop state of `_keep_object`: `keep` (`None` before any match) and the
`rules` set of exclude flags, represented by its two membership bits
(`False ∈ rules`, `True ∈ rules`). -/
def _keep_loop (name : String) :
    List FilterRule → Option Bool × Bool × Bool → Option Bool × Bool × Bool
  | [], acc => acc
  | (regex, exclude) :: rest, (keep, has_incl, has_excl) =>
    _keep_loop name rest
      ((if regex name then some (!exclude) else keep),
        has_incl || !exclude, has_excl || exclude)

/-- `_keep_object(name, filters)`: run the loop; with no match, reject exactly
when the rule set is `{False}` (only inclusion rules were present). -/
def _keep_object (name : String) (filters : List FilterRule) : Bool :=
  match _keep_loop name filters (none, false, false) with
  | (some keep, _, _) => keep
  | (none, has_incl, has_excl) => if has_incl && !has_excl then false else true

/-- The last rule of `filters` whose pattern matches `name` — the rule the
spec calls authoritative. -/
def last_match (name : String) : List FilterRule → Option FilterRule
  | [] => none
  | f :: fs =>
    match last_match name fs with
    | some r => some r
    | none => if f.1 name then some f else none

/-- The `members_list` argument of `do_filter_objects`: `None`, the literal
`True`/`False` sentinels, or a concrete list of names. -/
inductive MembersList where
  | noList
  | bool (b : Bool)
  | list (l : List String)
deriving DecidableEq, Repr

/-- `do_filter_objects(objects_dictionary, filters, members_list,
keep_no_docstrings)`.  `filters` is falsy when `None` or empty. -/
def do_filter_objects (objects_dictionary : List (String × CItem))
    (filters : Option (List FilterRule)) (members_list : MembersList)
    (keep_no_docstrings : Bool) : List CItem :=
  if members_list = .bool false ∨ members_list = .list [] then []
  else
    let objects := objects_dictionary.map (fun e => e.2)
    if members_list = .bool true then objects
    else
      match members_list with
      | .list l => objects.filter (fun obj => l.contains obj.name)
      | _ =>
        let objects :=
          match filters with
          | some (f :: fs) => objects.filter (fun obj => _keep_object obj.name (f :: fs))
          | _ => objects
        if keep_no_docstrings then objects
        else objects.filter (fun obj => obj.has_docstrings)

/-- The external Black library as `_get_black_formatter` sees it: whether
importing it succeeds, and the `format_str`-based formatter built from it. -/
structure BlackModule where
  available : Bool
  format_str : String → Nat → String

/-- The identity fallback `lambda text, _: text`. -/
def black_fallback : String → Nat → String := fun text _ => text

/-- The body of `_get_black_formatter`, uncached: the resolved formatter and
the number of diagnostics logged by this resolution (one `logger.info` when
the import fails). -/
def _get_black_formatter (black : BlackModule) : (String → Nat → String) × Nat :=
  if black.available then (fun code line_length => black.format_str code line_length, 0)
  else (black_fallback, 1)

/-- `@lru_cache(maxsize=1)` around `_get_black_formatter`: a cached resolution
is returned as-is (no work, no log); a miss runs the body and fills the
cache. -/
def cached_get_black_formatter (black : BlackModule)
    (cache : Option (String → Nat → String)) :
    (String → Nat → String) × Option (String → Nat → String) × Nat :=
  match cache with
  | some f => (f, some f, 0)
  | none =>
    let r := _get_black_formatter black
    (r.1, some r.1, r.2)

/-- Total number of diagnostics logged over `n` successive calls of the cached
resolver, starting from the given cache state. -/
def black_logs_over_calls (black : BlackModule) :
    Nat → Option (String → Nat → String) → Nat
  | 0, _ => 0
  | n + 1, cache =>
    let r := cached_get_black_formatter black cache
    r.2.2 + black_logs_over_calls black n r.2.1

/-- A griffe object as `do_get_template` reads it: the free-form `extra`
attribute (absent or a string-keyed dict of string-keyed string dicts) and the
object's `kind.value` tag. -/
structure TemplateObj where
  extra : Option (List (String × List (String × String)))
  kind : String
deriving DecidableEq, Repr

/-- `do_get_template(obj)`:
`getattr(obj, "extra", {}).get("mkdocstrings", {}).get("template", "") or
f"{obj.kind.value}.html"`. -/
def do_get_template (obj : TemplateObj) : String :=
  let extra_data := (dictFind (obj.extra.getD []) "mkdocstrings").getD []
  let t := (dictFind extra_data "template").getD ""
  if t = "" then obj.kind ++ ".html" else t

/-! ### Helper lemmas for the tree builders -/

theorem pySplitDotAux_ne_nil (l : List Char) : pySplitDotAux l ≠ [] := by
  cases l with
  | nil => simp [pySplitDotAux]
  | cons c rest =>
    simp only [pySplitDotAux]
    cases pySplitDotAux rest with
    | nil => simp
    | cons h t =>
      by_cases hc : c = '.' <;> simp [hc]

theorem pySplitDot_ne_nil (s : String) : pySplitDot s ≠ [] := by
  simpa [pySplitDot] using pySplitDotAux_ne_nil s.data

theorem vtree_isOk_of_ne_nil (objects : List GObj) (rl : Bool) (h : objects ≠ []) :
    (vtree objects rl).isOk = true := by
  cases objects with
  | nil => exact absurd rfl h
  | cons top rest => rfl

/-- C4: `vtree` and `htree` fail with the invalid-argument error
"At least one object must be provided" exactly on zero nodes — every call
with at least one node succeeds — and on exactly one node they return that
node, for `vtree` regardless of `return_leaf`. -/
theorem vtree_htree_empty_and_singleton :
    (∀ rl : Bool, vtree [] rl = .error "At least one object must be provided") ∧
    (htree [] = .error "At least one object must be provided") ∧
    (∀ (objects : List GObj) (rl : Bool), objects ≠ [] →
      ∃ result : GObj, vtree objects rl = .ok result) ∧
    (∀ objects : List GObj, objects ≠ [] →
      ∃ result : GObj, htree objects = .ok result) ∧
    (∀ (o : GObj) (rl : Bool), vtree [o] rl = .ok o) ∧
    (∀ o : GObj, htree [o] = .ok o) := by
  refine ⟨fun _ => rfl, rfl, fun objects rl h => ?_, fun objects h => ?_,
    fun o rl => ?_, fun o => rfl⟩
  · cases objects with
    | nil => exact absurd rfl h
    | cons top rest => exact ⟨_, rfl⟩
  · cases objects with
    | nil => exact absurd rfl h
    | cons top rest => exact ⟨_, rfl⟩
  · cases rl <;> rfl

/-- C4 witness: both builders succeed on a concrete two-node input (and the
singleton and empty conjuncts carry no hypotheses). -/
theorem vtree_htree_empty_and_singleton_witness :
    (∃ result : GObj,
      vtree [GObj.mk "a" [] [], GObj.mk "b" [] []] false = .ok result) ∧
    (∃ result : GObj,
      htree [GObj.mk "a" [] [], GObj.mk "b" [] []] = .ok result) :=
  ⟨vtree_htree_empty_and_singleton.2.2.1
      [GObj.mk "a" [] [], GObj.mk "b" [] []] false (by simp),
    vtree_htree_empty_and_singleton.2.2.2.1
      [GObj.mk "a" [] [], GObj.mk "b" [] []] (by simp)⟩

/-- C9: `module_vtree` can never hit the zero-objects `ValueError` of `vtree`:
splitting any string on dots yields at least one segment, so at least one
module is always built; in particular `module_vtree("")` returns a module
whose name is the empty string instead of failing. -/
theorem module_vtree_never_empty_error :
    (∀ (path : String) (lp rl : Bool), (module_vtree path lp rl).isOk = true) ∧
    (∀ lp rl : Bool, (module_vtree "" lp rl).map GObj.name = .ok "") := by
  constructor
  · intro path lp rl
    have hparts : pySplitDot path ≠ [] := pySplitDot_ne_nil path
    unfold module_vtree
    apply vtree_isOk_of_ne_nil
    cases hp : pySplitDot path with
    | nil => exact absurd hp hparts
    | cons a as =>
      cases lp with
      | true => simp [hp]
      | false =>
        simp only [hp, Bool.false_eq_true, if_false]
        cases hlast : ((a :: as).enum.map
            (fun p => GObj.mk p.2 ((a :: as).take p.1 ++ ["__init__.py"]) [])).getLast? with
        | none => simp
        | some m => simp
  · intro lp rl
    cases lp <;> cases rl <;> rfl

/-! ### C1: filter evaluation (`_keep_object`) -/

theorem _keep_loop_spec (name : String) (filters : List FilterRule)
    (keep : Option Bool) (hi he : Bool) :
    _keep_loop name filters (keep, hi, he) =
      ((match last_match name filters with
        | some r => some (!r.2)
        | none => keep),
        hi || filters.any (fun r => !r.2), he || filters.any (fun r => r.2)) := by
  induction filters generalizing keep hi he with
  | nil => simp [_keep_loop, last_match]
  | cons f fs ih =>
    obtain ⟨regex, exclude⟩ := f
    simp only [_keep_loop, ih, last_match, List.any_cons]
    cases h : last_match name fs with
    | some r => simp [h, Bool.or_assoc]
    | none => by_cases hr : regex name = true <;> simp [h, hr, Bool.or_assoc]

/-- C1 (amended): for every name and ordered rule list, the last rule whose
pattern matches decides the outcome (keep iff it is an include rule); when no
rule matches, the name is rejected exactly when the rule list is non-empty
and consists solely of include rules, and kept in every other case (empty,
exclude-only, or mixed rulesets). -/
theorem keep_object_last_match_decides (name : String) (filters : List FilterRule) :
    (∀ r : FilterRule, last_match name filters = some r →
      _keep_object name filters = !r.2) ∧
    (last_match name filters = none →
      (_keep_object name filters = false ↔
        filters ≠ [] ∧ ∀ r ∈ filters, r.2 = false)) := by
  unfold _keep_object
  rw [_keep_loop_spec]
  constructor
  · intro r h
    simp [h]
  · intro h
    simp only [h, Bool.false_or]
    have step1 : ((if (filters.any fun r => !r.2) && !(filters.any fun r => r.2)
        then false else true) : Bool) = false ↔
        ((filters.any fun r => !r.2) = true ∧ (filters.any fun r => r.2) = false) := by
      rcases Bool.eq_false_or_eq_true (filters.any fun r => !r.2) with hA | hA <;>
        rcases Bool.eq_false_or_eq_true (filters.any fun r => r.2) with hB | hB <;>
        simp [hA, hB]
    rw [step1]
    constructor
    · rintro ⟨hA, hB⟩
      obtain ⟨r, hr, _⟩ := List.any_eq_true.mp hA
      refine ⟨List.ne_nil_of_mem hr, fun r2 hr2 => ?_⟩
      simpa using List.any_eq_false.mp hB r2 hr2
    · rintro ⟨hne, hall⟩
      constructor
      · obtain ⟨r, hr⟩ := List.exists_mem_of_ne_nil filters hne
        exact List.any_eq_true.mpr ⟨r, hr, by simp [hall r hr]⟩
      · exact List.any_eq_false.mpr (fun r hr => by simp [hall r hr])

/-- C1 counterexample: with an empty rule list — where vacuously every rule
present is an include rule and no rule matches — the code keeps the name
instead of rejecting it as the claim states. -/
theorem keep_object_empty_ruleset_keeps :
    (∀ r ∈ ([] : List FilterRule), r.2 = false) ∧
    last_match "x" ([] : List FilterRule) = none ∧
    _keep_object "x" [] = true :=
  ⟨by simp, rfl, rfl⟩

/-- C1 witness: a matching exclude rule rejects `"_private"`; an include-only
ruleset with no match rejects `"other"` (allow-list semantics). -/
theorem keep_object_last_match_decides_witness :
    _keep_object "_private" [(fun s => s.data.headD ' ' == '_', true)] = false ∧
    _keep_object "other" [(fun s => s.data.take 3 == ['p', 'u', 'b'], false)] = false :=
  ⟨(keep_object_last_match_decides "_private"
      [(fun s => s.data.headD ' ' == '_', true)]).1
      (fun s => s.data.headD ' ' == '_', true) rfl,
    ((keep_object_last_match_decides "other"
      [(fun s => s.data.take 3 == ['p', 'u', 'b'], false)]).2 rfl).mpr
      ⟨by simp, by simp⟩⟩

/-! ### C2: `do_filter_objects` explicit selection -/

/-- C2: `do_filter_objects` with the empty-selection sentinel (`False` or the
empty list) returns the empty list; with the all-selection sentinel (`True`)
returns every object of the dictionary; with a concrete name list returns
exactly the objects whose name is in that list — in all three cases ignoring
the filters and the docstring flag, which are universally quantified here. -/
theorem filter_objects_members_list_sentinels
    (d : List (String × CItem)) (filters : Option (List FilterRule)) (kd : Bool) :
    (do_filter_objects d filters (.bool false) kd = [] ∧
      do_filter_objects d filters (.list []) kd = []) ∧
    do_filter_objects d filters (.bool true) kd = d.map (fun e => e.2) ∧
    (∀ l : List String,
      do_filter_objects d filters (.list l) kd =
        (d.map (fun e => e.2)).filter (fun obj => decide (obj.name ∈ l))) := by
  refine ⟨⟨by simp [do_filter_objects], by simp [do_filter_objects]⟩,
    by simp [do_filter_objects], fun l => ?_⟩
  cases l with
  | nil => simp [do_filter_objects]
  | cons a as =>
    simp only [do_filter_objects]
    rw [if_neg (by simp), if_neg (by simp)]
    apply List.filter_congr
    intro obj _
    simp [List.contains, List.elem_eq_mem]

/-! ### C3: `do_order_members` with an explicit member list -/

theorem dictFind_cons {α : Type} (k2 : String) (v2 : α) (l : List (String × α))
    (nm : String) :
    dictFind ((k2, v2) :: l) nm = if nm = k2 then some v2 else dictFind l nm := by
  by_cases h : nm = k2
  · subst h
    simp [dictFind, List.find?_cons]
  · have hk : (k2 == nm) = false := beq_false_of_ne (Ne.symm h)
    simp [dictFind, List.find?_cons, hk, h]

theorem dictFind_dictSet {α : Type} (d : List (String × α)) (k nm : String) (v : α) :
    dictFind (dictSet k v d) nm = if nm = k then some v else dictFind d nm := by
  induction d with
  | nil =>
    show dictFind [(k, v)] nm = if nm = k then some v else dictFind [] nm
    rw [dictFind_cons]
  | cons e rest ih =>
    obtain ⟨k2, v2⟩ := e
    by_cases h2 : k2 = k
    · subst h2
      have hs : dictSet k2 v ((k2, v2) :: rest) = (k2, v) :: rest := by
        simp [dictSet]
      rw [hs, dictFind_cons, dictFind_cons]
      by_cases h : nm = k2 <;> simp [h]
    · have hs : dictSet k v ((k2, v2) :: rest) = (k2, v2) :: dictSet k v rest := by
        simp [dictSet, h2]
      rw [hs, dictFind_cons, dictFind_cons, ih]
      by_cases h : nm = k2
      · have hnk : ¬nm = k := fun hc => h2 (h ▸ hc)
        simp [h, hnk, h2]
      · simp [h]

theorem dictFind_members_dict_loop (members : List CItem)
    (d : List (String × CItem)) (nm : String) :
    dictFind (members.foldl (fun d m => dictSet m.name m d) d) nm =
      (members.reverse.find? (fun m => m.name == nm)).orElse
        (fun _ => dictFind d nm) := by
  induction members generalizing d with
  | nil => simp
  | cons m ms ih =>
    simp only [List.foldl_cons, ih, List.reverse_cons, List.find?_append]
    cases hfind : ms.reverse.find? (fun m => m.name == nm) with
    | some r => simp [Option.orElse]
    | none =>
      simp only [Option.orElse, List.find?_cons, List.find?_nil]
      by_cases h : nm = m.name
      · simp [dictFind_dictSet, h, beq_iff_eq]
      · have : (m.name == nm) = false := by simp [beq_iff_eq, Ne.symm h]
        simp [dictFind_dictSet, h, this]

theorem dictFind_members_dict (members : List CItem) (nm : String) :
    dictFind (members_dict members) nm =
      members.reverse.find? (fun m => m.name == nm) := by
  rw [members_dict, dictFind_members_dict_loop]
  cases hfind : members.reverse.find? (fun m => m.name == nm) <;>
    simp [hfind, Option.orElse, dictFind]

theorem order_loop_eq_filterMap (md : List (String × CItem)) (l : List String)
    (acc : List CItem) :
    l.foldl (fun acc nm =>
        match dictFind md nm with
        | some m => acc ++ [m]
        | none => acc) acc
      = acc ++ l.filterMap (fun nm => dictFind md nm) := by
  induction l generalizing acc with
  | nil => simp
  | cons a as ih =>
    cases h : dictFind md a <;>
      simp [List.foldl_cons, h, ih, List.filterMap_cons]

/-- C3 (amended): when the explicit member-name list is non-empty, the result
is exactly the members found under the listed names (the last member carrying
a name wins in the name dictionary), in the list's order, unmatched names
silently dropped and the order mode ignored; in particular the explicit list
`["b", "a"]` against members `a, b, c` yields `[b, a]`. -/
theorem order_members_explicit_nonempty :
    (∀ (members : List CItem) (order : Order) (n : String) (rest : List String),
      do_order_members members order (some (n :: rest)) =
        (n :: rest).filterMap
          (fun nm => members.reverse.find? (fun m => m.name == nm))) ∧
    do_order_members
        [⟨"a", some 1, true⟩, ⟨"b", some 2, true⟩, ⟨"c", some 3, true⟩]
        Order.alphabetical (some ["b", "a"])
      = [⟨"b", some 2, true⟩, ⟨"a", some 1, true⟩] := by
  have main : ∀ (members : List CItem) (order : Order) (n : String)
      (rest : List String),
      do_order_members members order (some (n :: rest)) =
        (n :: rest).filterMap
          (fun nm => members.reverse.find? (fun m => m.name == nm)) := by
    intro members order n rest
    simp only [do_order_members, order_loop_eq_filterMap, List.nil_append]
    congr 1
    funext nm
    exact dictFind_members_dict members nm
  exact ⟨main, by rw [main]; rfl⟩

/-- C3 counterexample: an explicit EMPTY member list is falsy in Python, so
`do_order_members` ignores it and sorts the members instead of returning the
empty selection the claim requires. -/
theorem order_members_empty_explicit_list_sorts :
    do_order_members [⟨"a", none, true⟩] Order.alphabetical (some []) =
      [⟨"a", none, true⟩] ∧
    do_order_members [⟨"a", none, true⟩] Order.alphabetical (some []) ≠ [] := by
  constructor
  · simp [do_order_members, pySorted]
  · simp [do_order_members, pySorted]

/-! ### C5: `do_format_code` line-length budget -/

/-- C5: `do_format_code` first strips the code of surrounding whitespace; a
stripped string strictly shorter than the budget is returned unchanged,
otherwise the external formatter is applied to the stripped string with the
budget as maximum line length. -/
theorem format_code_budget (formatter : String → Nat → String) (code : String)
    (line_length : Nat) :
    ((pyStrip code).length < line_length →
      do_format_code formatter code line_length = pyStrip code) ∧
    (¬(pyStrip code).length < line_length →
      do_format_code formatter code line_length =
        formatter (pyStrip code) line_length) := by
  constructor <;> intro h <;> simp [do_format_code, h]

/-- C5 witness: `"  x = 1  "` strips to `"x = 1"`, which is returned unchanged
under budget 80 and handed to the formatter under budget 3. -/
theorem format_code_budget_witness :
    do_format_code (fun _ _ => "FMT") "  x = 1  " 80 = "x = 1" ∧
    do_format_code (fun _ _ => "FMT") "  x = 1  " 3 = "FMT" :=
  ⟨(format_code_budget (fun _ _ => "FMT") "  x = 1  " 80).1 (by decide),
    (format_code_budget (fun _ _ => "FMT") "  x = 1  " 3).2 (by decide)⟩

/-! ### C6: `do_order_members` sorting -/

theorem decide_key_le_trans {α β : Type} [LinearOrder β] (key : α → β) :
    ∀ a b c : α, decide (key a ≤ key b) = true → decide (key b ≤ key c) = true →
      decide (key a ≤ key c) = true := by
  intro a b c hab hbc
  simp only [decide_eq_true_eq] at hab hbc ⊢
  exact le_trans hab hbc

theorem decide_key_le_total {α β : Type} [LinearOrder β] (key : α → β) :
    ∀ a b : α, (decide (key a ≤ key b) || decide (key b ≤ key a)) = true := by
  intro a b
  rcases le_total (key a) (key b) with h | h <;> simp [h]

theorem pySorted_by_key_pairwise {α β : Type} [LinearOrder β] (key : α → β)
    (l : List α) :
    (pySorted (fun a b => decide (key a ≤ key b)) l).Pairwise
      (fun a b => key a ≤ key b) := by
  have h : (List.mergeSort l (fun a b => decide (key a ≤ key b))).Pairwise
      (fun a b => decide (key a ≤ key b) = true) :=
    List.sorted_mergeSort (decide_key_le_trans key) (decide_key_le_total key) l
  exact h.imp (fun hab => by simpa using hab)

theorem pySorted_by_key_stable {α β : Type} [LinearOrder β] [DecidableEq β]
    (key : α → β) (l : List α) (v : β) :
    (pySorted (fun a b => decide (key a ≤ key b)) l).filter
        (fun a => decide (key a = v)) =
      l.filter (fun a => decide (key a = v)) := by
  show (List.mergeSort l (fun a b => decide (key a ≤ key b))).filter
      (fun a => decide (key a = v)) = l.filter (fun a => decide (key a = v))
  have hcf : (l.filter (fun a => decide (key a = v))).Pairwise
      (fun a b => decide (key a ≤ key b) = true) := by
    apply List.pairwise_of_forall_mem_list
    intro a ha b hb
    have hka : key a = v := by simpa using (List.mem_filter.mp ha).2
    have hkb : key b = v := by simpa using (List.mem_filter.mp hb).2
    simp [hka, hkb]
  have hsub : List.Sublist (l.filter (fun a => decide (key a = v)))
      (List.mergeSort l (fun a b => decide (key a ≤ key b))) :=
    List.sublist_mergeSort (decide_key_le_trans key) (decide_key_le_total key)
      hcf (List.filter_sublist l)
  have h3 := hsub.filter (fun a => decide (key a = v))
  have h4 : (l.filter (fun a => decide (key a = v))).filter
      (fun a => decide (key a = v)) = l.filter (fun a => decide (key a = v)) :=
    List.filter_eq_self.mpr (fun a ha => (List.mem_filter.mp ha).2)
  rw [h4] at h3
  have hlen : ((List.mergeSort l (fun a b => decide (key a ≤ key b))).filter
      (fun a => decide (key a = v))).length =
      (l.filter (fun a => decide (key a = v))).length :=
    ((List.mergeSort_perm l (fun a b => decide (key a ≤ key b))).filter
      (fun a => decide (key a = v))).length_eq
  exact (h3.eq_of_length hlen.symm).symm

/-- C6: without an explicit member list `do_order_members` sorts stably and
ascending by the selected key: the result is a permutation of the members,
pairwise ordered by the key, and members with equal keys keep their relative
order; the alphabetical key is the member's name with the final unicode
character as sorts-last fallback for a missing (empty) name, the source key is
the line number with the sorts-first fallback `-1`. -/
theorem order_members_sorts_stably (members : List CItem) :
    (List.Perm (do_order_members members .alphabetical none) members ∧
      (do_order_members members .alphabetical none).Pairwise
        (fun a b => _sort_key_alphabetical a ≤ _sort_key_alphabetical b) ∧
      ∀ v : String,
        (do_order_members members .alphabetical none).filter
            (fun m => decide (_sort_key_alphabetical m = v)) =
          members.filter (fun m => decide (_sort_key_alphabetical m = v))) ∧
    (List.Perm (do_order_members members .source none) members ∧
      (do_order_members members .source none).Pairwise
        (fun a b => _sort_key_source a ≤ _sort_key_source b) ∧
      ∀ v : Int,
        (do_order_members members .source none).filter
            (fun m => decide (_sort_key_source m = v)) =
          members.filter (fun m => decide (_sort_key_source m = v))) ∧
    (∀ m : CItem, m.name = "" → _sort_key_alphabetical m = maxUnicodeString) ∧
    (∀ m : CItem, m.name ≠ "" → _sort_key_alphabetical m = m.name) ∧
    (∀ m : CItem, m.lineno = none → _sort_key_source m = -1) ∧
    (∀ (m : CItem) (n : Int), m.lineno = some n → _sort_key_source m = n) := by
  refine ⟨⟨?_, ?_, ?_⟩, ⟨?_, ?_, ?_⟩, ?_, ?_, ?_, ?_⟩
  · exact List.mergeSort_perm members _
  · exact pySorted_by_key_pairwise _sort_key_alphabetical members
  · exact pySorted_by_key_stable _sort_key_alphabetical members
  · exact List.mergeSort_perm members _
  · exact pySorted_by_key_pairwise _sort_key_source members
  · exact pySorted_by_key_stable _sort_key_source members
  · intro m h
    simp [_sort_key_alphabetical, h]
  · intro m h
    simp [_sort_key_alphabetical, h]
  · intro m h
    simp [_sort_key_source, h]
  · intro m n h
    simp [_sort_key_source, h]

/-- C6 witness: the key fallbacks at concrete members — an empty name keys as
the final unicode character, `"abc"` keys as itself, a missing line number
keys as `-1`, line 7 keys as `7`. -/
theorem order_members_sorts_stably_witness :
    _sort_key_alphabetical ⟨"", none, true⟩ = maxUnicodeString ∧
    _sort_key_alphabetical ⟨"abc", none, true⟩ = "abc" ∧
    _sort_key_source ⟨"a", none, true⟩ = -1 ∧
    _sort_key_source ⟨"a", some 7, true⟩ = 7 :=
  ⟨(order_members_sorts_stably []).2.2.1 ⟨"", none, true⟩ rfl,
    (order_members_sorts_stably []).2.2.2.1 ⟨"abc", none, true⟩ (by decide),
    (order_members_sorts_stably []).2.2.2.2.1 ⟨"a", none, true⟩ rfl,
    (order_members_sorts_stably []).2.2.2.2.2 ⟨"a", some 7, true⟩ 7 rfl⟩

/-! ### C7: `do_crossref` with `brief=True` -/

/-- C7: for every dotted path, `do_crossref` with `brief=True` renders the
span whose hover attribute is the escaped full path and whose visible text is
the escaped last dot-separated segment; `"a.b.c"` shows `"c"` with hover
`"a.b.c"`, and markup-significant characters are escaped in both slots. -/
theorem crossref_brief (path : String) :
    do_crossref path true =
      "<span data-autorefs-optional-hover=" ++ markup_escape path ++ ">"
        ++ markup_escape ((pySplitDot path).getLastD "") ++ "</span>" ∧
    do_crossref "a.b.c" true =
      "<span data-autorefs-optional-hover=a.b.c>c</span>" ∧
    do_crossref "a<b" true =
      "<span data-autorefs-optional-hover=a&lt;b>a&lt;b</span>" :=
  ⟨rfl, by decide, by decide⟩

/-! ### C8: Black resolution fallback and memoisation -/

theorem black_logs_cached (black : BlackModule) (f : String → Nat → String) :
    ∀ n : Nat, black_logs_over_calls black n (some f) = 0
  | 0 => rfl
  | n + 1 => by
    simp [black_logs_over_calls, cached_get_black_formatter,
      black_logs_cached black f n]

/-- C8: when the Black import fails, resolution does not raise: it yields the
identity fallback together with exactly one diagnostic; `do_format_code`
through the fallback returns the stripped input unchanged for every budget
(also when the stripped length reaches the budget); a cached resolution is
returned as-is without logging; and from a cold cache, any number of calls
logs at most one diagnostic in total. -/
theorem black_unavailable_fallback :
    (∀ f : String → Nat → String,
      _get_black_formatter ⟨false, f⟩ = (black_fallback, 1)) ∧
    (∀ (code : String) (line_length : Nat),
      do_format_code black_fallback code line_length = pyStrip code) ∧
    (∀ (black : BlackModule) (f : String → Nat → String),
      cached_get_black_formatter black (some f) = (f, some f, 0)) ∧
    (∀ (black : BlackModule) (n : Nat),
      black_logs_over_calls black n none ≤ 1) := by
  refine ⟨fun f => rfl, fun code line_length => ?_, fun black f => rfl,
    fun black n => ?_⟩
  · show (if (pyStrip code).length < line_length then pyStrip code
      else black_fallback (pyStrip code) line_length) = pyStrip code
    split <;> rfl
  · cases n with
    | zero => simp [black_logs_over_calls]
    | succ n =>
      simp only [black_logs_over_calls, cached_get_black_formatter]
      rw [black_logs_cached]
      by_cases h : black.available = true <;>
        simp [_get_black_formatter, h]

/-! ### C10: `do_get_template` override handling -/

/-- C10: `do_get_template` treats a falsy override as absent — with no `extra`
attribute, no `"mkdocstrings"` entry, no `"template"` entry, or an empty
`"template"` entry, it falls back to the default name built from the object's
kind tag; only a non-empty template override is returned as-is. -/
theorem get_template_falsy_override (obj : TemplateObj) :
    (obj.extra = none → do_get_template obj = obj.kind ++ ".html") ∧
    (∀ d, obj.extra = some d → dictFind d "mkdocstrings" = none →
      do_get_template obj = obj.kind ++ ".html") ∧
    (∀ d ed, obj.extra = some d → dictFind d "mkdocstrings" = some ed →
      dictFind ed "template" = none →
      do_get_template obj = obj.kind ++ ".html") ∧
    (∀ d ed, obj.extra = some d → dictFind d "mkdocstrings" = some ed →
      dictFind ed "template" = some "" →
      do_get_template obj = obj.kind ++ ".html") ∧
    (∀ d ed t, obj.extra = some d → dictFind d "mkdocstrings" = some ed →
      dictFind ed "template" = some t → t ≠ "" →
      do_get_template obj = t) := by
  refine ⟨?_, ?_, ?_, ?_, ?_⟩
  · intro h
    simp [do_get_template, h, dictFind]
  · intro d h hd
    have hnil : dictFind ([] : List (String × String)) "template" = none := rfl
    simp [do_get_template, h, hd, hnil]
  · intro d ed h hd hed
    simp [do_get_template, h, hd, hed]
  · intro d ed h hd hed
    simp [do_get_template, h, hd, hed]
  · intro d ed t h hd hed ht
    simp [do_get_template, h, hd, hed, ht]

/-- C10 witness: a missing `extra`, an empty `"template"` entry, and a
non-empty `"template"` entry, each at a concrete object. -/
theorem get_template_falsy_override_witness :
    do_get_template ⟨none, "class"⟩ = "class.html" ∧
    do_get_template ⟨some [("mkdocstrings", [("template", "")])], "function"⟩
      = "function.html" ∧
    do_get_template ⟨some [("mkdocstrings", [("template", "custom.html")])], "class"⟩
      = "custom.html" :=
  ⟨(get_template_falsy_override ⟨none, "class"⟩).1 rfl,
    (get_template_falsy_override
        ⟨some [("mkdocstrings", [("template", "")])], "function"⟩).2.2.2.1
      [("mkdocstrings", [("template", "")])] [("template", "")] rfl rfl rfl,
    (get_template_falsy_override
        ⟨some [("mkdocstrings", [("template", "custom.html")])], "class"⟩).2.2.2.2
      [("mkdocstrings", [("template", "custom.html")])]
      [("template", "custom.html")] "custom.html" rfl rfl rfl (by decide)⟩
